import Mathlib

/-!
Verification development for the NetBuilder digital-net core
(`AbstractDigitalNet` / `DigitalNet` in `DigitalNet.h`).

The C++ classes are shallowly embedded as follows.

* `SPtr α` models a `std::shared_ptr` cell: an allocation address together
  with the pointed-to value.  Objects behind these pointers are never
  written after allocation in the source, so carrying the value inline is
  faithful; pointer identity ("the same underlying object") is equality of
  the `addr` field.  Allocation is modelled by threading a fresh-address
  counter through the operations that call `new` / construct matrices.
* `DigitalNet` mirrors the data members of the C++ classes
  (`m_dimension`, `m_nRows`, `m_nCols`, `m_generatingMatrices`,
  `m_sizeParameter`, `m_genValues`).
* The construction-method traits class (`NetConstructionTraits`, not part
  of the sources verified here) is abstracted by the `ConstructionMethod`
  structure: the generating-value and size-parameter types and the
  functions `nRows`, `nCols`, `createGeneratingMatrix`, the
  `isSequenceViewable` flag, the bit-matrix serialisation
  `formatToColumnsReverse` and the trait formatter `format`, exactly the
  interface `DigitalNet.h` consumes.
* `AbstractDigitalNet::generatingMatrix` indexes
  `m_generatingMatrices` with unchecked `std::vector::operator[]`; an
  out-of-range access has no defined behaviour and raises nothing.  The
  embedding returns a `MatrixLookup` outcome whose `undefined` constructor
  stands for that undefined behaviour, `value` for a normal return, and
  `raised` for a propagated error condition (which the source never
  produces).
* `uInteger` arithmetic is the host's 64-bit unsigned arithmetic, i.e.
  arithmetic modulo `2 ^ 64`.  The C++ `Dimension` and `unsigned int`
  index types are modelled as `Nat` (the claims never exercise their
  wrap-around).
-/

namespace NetBuilder

/-- Modulus of the unsigned 64-bit `uInteger` type used for point counts. -/
def uIntegerModulus : Nat := 2 ^ 64

/-- Modelled from the spec: `LatBuilder::intPow` (declared in
`latbuilder/Util.h`, which is not among the sources) computes integer
powers on the unsigned `uInteger` type; per the spec the source's overflow
behaviour "relies on the host's native integer width", i.e. the
arithmetic silently wraps modulo `2 ^ 64`. -/
def intPow (base exponent : Nat) : Nat := base ^ exponent % uIntegerModulus

/-- Model of a `std::shared_ptr` cell: allocation address plus the
pointed-to value (which the source never mutates after allocation).
Two slots hold the same underlying object iff they are equal as `SPtr`s,
in particular iff their `addr` fields agree. -/
structure SPtr (α : Type) where
  addr : Nat
  val : α
deriving DecidableEq, Repr

/-- Modelled from the spec: the `OutputStyle` enumeration
(`netbuilder/Types.h`, not among the sources).  The spec names the two
styles rendered by `DigitalNet::format`; `OTHER` stands for any further
enumerator, for which the generic block of `format` is empty. -/
inductive OutputStyle where
  | TERMINAL
  | NET
  | OTHER
deriving DecidableEq, Repr

/-- Outcome of `AbstractDigitalNet::generatingMatrix`: a normal return
(`value`), a propagated error condition (`raised`), or undefined behaviour
(`undefined`, what unchecked `std::vector::operator[]` gives out of
range). -/
inductive MatrixLookup (M : Type) where
  | value : M → MatrixLookup M
  | raised : String → MatrixLookup M
  | undefined : MatrixLookup M
deriving DecidableEq, Repr

/-- The traits interface consumed by `DigitalNet` (the
`NetConstructionTraits` contract): generating matrices of type `M`,
generating values of type `GV`, size parameters of type `SP`. -/
structure ConstructionMethod (M GV SP : Type) where
  nRows : SP → Nat
  nCols : SP → Nat
  createGeneratingMatrix : GV → SP → Nat → M
  isSequenceViewable : Bool
  formatToColumnsReverse : M → String
  format : List (SPtr M) → List (SPtr GV) → SP → OutputStyle → Nat → String

/-- Data members of `DigitalNet<NC>` (including those inherited from
`AbstractDigitalNet`). -/
structure DigitalNet (M GV SP : Type) where
  m_dimension : Nat
  m_nRows : Nat
  m_nCols : Nat
  m_generatingMatrices : List (SPtr M)
  m_sizeParameter : SP
  m_genValues : List (SPtr GV)
deriving DecidableEq, Repr

variable {M GV SP : Type}

/-- `AbstractDigitalNet::numColumns`. -/
def DigitalNet.numColumns (net : DigitalNet M GV SP) : Nat := net.m_nCols

/-- `AbstractDigitalNet::numRows`. -/
def DigitalNet.numRows (net : DigitalNet M GV SP) : Nat := net.m_nRows

/-- `AbstractDigitalNet::numPoints`: `LatBuilder::intPow(2, m_nCols)`. -/
def DigitalNet.numPoints (net : DigitalNet M GV SP) : Nat := intPow 2 net.m_nCols

/-- `AbstractDigitalNet::dimension`. -/
def DigitalNet.dimension (net : DigitalNet M GV SP) : Nat := net.m_dimension

/-- `AbstractDigitalNet::generatingMatrix`: unchecked
`*m_generatingMatrices[coord]`.  In range this returns the stored matrix;
out of range `std::vector::operator[]` has undefined behaviour (it does
not throw), embedded as `MatrixLookup.undefined`. -/
def DigitalNet.generatingMatrix (net : DigitalNet M GV SP) (coord : Nat) :
    MatrixLookup M :=
  match net.m_generatingMatrices[coord]? with
  | some p => MatrixLookup.value p.val
  | none => MatrixLookup.undefined

/-- Body of the construction loop of
`DigitalNet(dimension, sizeParameter, genValues)`: for the generating
value at position `j` it allocates the matrix
`createGeneratingMatrix(genValue, sizeParameter, j)` and a copy of the
generating value (`j` starts at the given index, fresh addresses from
`c`). -/
def buildCoords (cm : ConstructionMethod M GV SP) (sp : SP) :
    List GV → Nat → Nat → List (SPtr M) × List (SPtr GV)
  | [], _, _ => ([], [])
  | v :: vs, j, c =>
    let rest := buildCoords cm sp vs (j + 1) (c + 2)
    (⟨c, cm.createGeneratingMatrix v sp j⟩ :: rest.1, ⟨c + 1, v⟩ :: rest.2)

/-- The value-sequence constructor
`DigitalNet(dimension, sizeParameter, genValues)`: row/column counts come
from the traits' sizing functions, the matrices from
`createGeneratingMatrix(genValue, sizeParameter, j)` for the running
coordinate index `j`.  `alloc` is the next fresh allocation address; the
updated allocator is returned alongside the net. -/
def DigitalNet.ofGenValues (cm : ConstructionMethod M GV SP)
    (dimension : Nat) (sp : SP) (genValues : List GV) (alloc : Nat) :
    DigitalNet M GV SP × Nat :=
  let built := buildCoords cm sp genValues 0 alloc
  ({ m_dimension := dimension
     m_nRows := cm.nRows sp
     m_nCols := cm.nCols sp
     m_generatingMatrices := built.1
     m_sizeParameter := sp
     m_genValues := built.2 }, alloc + 2 * genValues.length)

/-- The placeholder ("dummy") constructor
`DigitalNet(dimension, sizeParameter)`: stores the dimension and the
counts derived from the size parameter but allocates no matrices and no
generating values. -/
def DigitalNet.placeholder (cm : ConstructionMethod M GV SP)
    (dimension : Nat) (sp : SP) : DigitalNet M GV SP :=
  { m_dimension := dimension
    m_nRows := cm.nRows sp
    m_nCols := cm.nCols sp
    m_generatingMatrices := []
    m_sizeParameter := sp
    m_genValues := [] }

/-- `DigitalNet::appendNewCoordinate(newGenValue)`: allocates one new
matrix `createGeneratingMatrix(newGenValue, m_sizeParameter, m_dimension)`
and one copy of the new generating value, copies the two pointer vectors
of the receiver and pushes the new slots, and builds the net of dimension
`m_dimension + 1` through the private pointer-reusing constructor.  The
receiver is `const` and is not touched.  `alloc` is the next fresh
allocation address. -/
def DigitalNet.appendNewCoordinate (cm : ConstructionMethod M GV SP)
    (net : DigitalNet M GV SP) (newGenValue : GV) (alloc : Nat) :
    DigitalNet M GV SP × Nat :=
  let newMat : SPtr M :=
    ⟨alloc, cm.createGeneratingMatrix newGenValue net.m_sizeParameter net.m_dimension⟩
  let newVal : SPtr GV := ⟨alloc + 1, newGenValue⟩
  ({ m_dimension := net.m_dimension + 1
     m_nRows := cm.nRows net.m_sizeParameter
     m_nCols := cm.nCols net.m_sizeParameter
     m_generatingMatrices := net.m_generatingMatrices ++ [newMat]
     m_sizeParameter := net.m_sizeParameter
     m_genValues := net.m_genValues ++ [newVal] }, alloc + 2)

/-- Model of `std::string::pop_back`: removes the last character. -/
def popBack (s : String) : String := String.mk s.data.dropLast

/-- The matrix loop of the `OutputStyle::NET` branch of
`DigitalNet::format`: for each `coord` below `m_genValues.size()` it
appends `m_generatingMatrices[coord]->formatToColumnsReverse()` and a
newline.  An index with no matrix would be undefined behaviour of
`operator[]`; it is rendered as the empty string here (no claim reaches
that case). -/
def matrixLines (cm : ConstructionMethod M GV SP) (net : DigitalNet M GV SP) : String :=
  ((List.range net.m_genValues.length).map (fun coord =>
      (match net.m_generatingMatrices[coord]? with
       | some p => cm.formatToColumnsReverse p.val
       | none => "") ++ "\n")).foldl (fun a b => a ++ b) ""

/-- `DigitalNet::format(outputStyle, interlacingFactor)`.  The
`TERMINAL` branch streams the four count lines and, when the interlacing
factor exceeds 1, two further lines.  The `NET` branch concatenates the
header, the dimension line, optional interlacing lines, the `k` line, the
fixed `r = 31` line, the column-header comment and one line per
coordinate, then drops the final character (`res.pop_back()`).  Both
branches append the traits' formatter output. -/
def DigitalNet.format (cm : ConstructionMethod M GV SP) (net : DigitalNet M GV SP)
    (outputStyle : OutputStyle) (interlacingFactor : Nat) : String :=
  let res : String :=
    match outputStyle with
    | OutputStyle.TERMINAL =>
        Nat.repr net.m_nCols ++ "  // Number of columns\n" ++
          (Nat.repr net.m_nRows ++ "  // Number of rows\n" ++
            (Nat.repr net.numPoints ++ "  // Number of points\n" ++
              (Nat.repr (net.m_dimension / interlacingFactor) ++ "  // Dimension of points\n" ++
                (if 1 < interlacingFactor then
                  Nat.repr interlacingFactor ++ "  // Interlacing factor\n" ++
                    Nat.repr net.m_dimension ++
                      "  // Number of components = interlacing factor x dimension\n"
                 else ""))))
    | OutputStyle.NET =>
        popBack
          (("# Parameters for a digital net in base 2\n" ++
              (Nat.repr net.m_dimension ++ "    # " ++ Nat.repr net.m_dimension ++
                " dimensions\n") ++
              (if 1 < interlacingFactor then
                Nat.repr interlacingFactor ++ "  // Interlacing factor" ++ "\n" ++
                  (Nat.repr net.m_dimension ++
                    "  // Number of components = interlacing factor x dimension" ++ "\n")
               else "") ++
              (Nat.repr net.m_nCols ++ "   # k = " ++ Nat.repr net.m_nCols ++ ",  n = 2^" ++
                Nat.repr net.m_nCols ++ " = " ++ Nat.repr net.numPoints ++ " points\n") ++
              "31   # r = 31 binary output digits\n") ++
            ((if interlacingFactor == 1 then
                "# Columns of gen. matrices C_1,...,C_s, one matrix per line:\n"
              else
                "# Columns of gen. matrices C_1,...,C_\x7bds\x7d, one matrix per line:\n") ++
              matrixLines cm net))
    | OutputStyle.OTHER => ""
  res ++ cm.format net.m_generatingMatrices net.m_genValues net.m_sizeParameter
    outputStyle interlacingFactor

/-- `DigitalNet::isSequenceViewable`: returns the traits' flag verbatim. -/
def DigitalNet.isSequenceViewable (cm : ConstructionMethod M GV SP)
    (_net : DigitalNet M GV SP) : Bool :=
  cm.isSequenceViewable

/-- `DigitalNet::sizeParameter`: returns the stored size parameter. -/
def DigitalNet.sizeParameter (net : DigitalNet M GV SP) : SP := net.m_sizeParameter

/-- Iterated extension: fold `appendNewCoordinate` over a list of
generating values, threading the allocator. -/
def extendAll (cm : ConstructionMethod M GV SP)
    (start : DigitalNet M GV SP × Nat) (vs : List GV) : DigitalNet M GV SP × Nat :=
  vs.foldl (fun p v => DigitalNet.appendNewCoordinate cm p.1 v p.2) start

/-- The per-coordinate matrix invariant: the stored matrix at every index
`i` is `createGeneratingMatrix` of the stored generating value at `i`,
the stored size parameter, and `i` itself. -/
def matricesMatchValues (cm : ConstructionMethod M GV SP)
    (net : DigitalNet M GV SP) : Prop :=
  ∀ i : Nat,
    net.m_generatingMatrices[i]?.map SPtr.val =
      net.m_genValues[i]?.map
        (fun p => cm.createGeneratingMatrix p.val net.m_sizeParameter i)

/-- Length consistency of a net: both per-coordinate sequences have
exactly `m_dimension` entries. -/
def wellFormed (net : DigitalNet M GV SP) : Prop :=
  net.m_generatingMatrices.length = net.m_dimension ∧
    net.m_genValues.length = net.m_dimension

/-- Matrix contents produced by the construction loop from coordinate
index `j` on (specification of `buildCoords` with the allocator erased). -/
def matVals (cm : ConstructionMethod M GV SP) (sp : SP) :
    List GV → Nat → List M
  | [], _ => []
  | v :: vs, j => cm.createGeneratingMatrix v sp j :: matVals cm sp vs (j + 1)

/-- A concrete construction method used to witness the theorems:
matrices and generating values are natural numbers, the size parameter is
the pair (rows, columns), the matrix built for value `v` at coordinate
`j` is `v + 1000 * j`, and the traits formatter emits nothing. -/
def unitCM : ConstructionMethod Nat Nat (Nat × Nat) :=
  { nRows := fun sp => sp.1
    nCols := fun sp => sp.2
    createGeneratingMatrix := fun v _ j => v + 1000 * j
    isSequenceViewable := false
    formatToColumnsReverse := fun m => Nat.repr m
    format := fun _ _ _ _ _ => "" }

/-- One-coordinate example net: 3×3 matrices, generating value 5. -/
def exNet1 : DigitalNet Nat Nat (Nat × Nat) :=
  (DigitalNet.ofGenValues unitCM 1 (3, 3) [5] 0).1

/-- Two-coordinate example net with 3×3 matrices (8 points). -/
def exNet9 : DigitalNet Nat Nat (Nat × Nat) :=
  (DigitalNet.ofGenValues unitCM 2 (3, 3) [5, 7] 0).1

/-- One-coordinate example net with 2 columns (4 points). -/
def exNet8 : DigitalNet Nat Nat (Nat × Nat) :=
  (DigitalNet.ofGenValues unitCM 1 (2, 2) [5] 0).1

/-- Example net whose column count 64 overflows the 64-bit point count. -/
def exNet64 : DigitalNet Nat Nat (Nat × Nat) :=
  DigitalNet.placeholder unitCM 0 (64, 64)

/-- Example net whose column count 70 overflows the 64-bit point count. -/
def exNet70 : DigitalNet Nat Nat (Nat × Nat) :=
  DigitalNet.placeholder unitCM 3 (70, 70)

/-- Concatenation of a list of strings (specification helper used to
describe the matrix block of `format`). -/
def joinAll : List String → String
  | [] => ""
  | l :: ls => l ++ joinAll ls

lemma strData_append (a b : String) : (a ++ b).data = a.data ++ b.data := rfl

lemma strAppend_assoc (a b c : String) : a ++ b ++ c = a ++ (b ++ c) :=
  congrArg String.mk (List.append_assoc a.data b.data c.data)

lemma strNil_append (s : String) : "" ++ s = s := rfl

lemma strAppend_empty (s : String) : s ++ "" = s :=
  congrArg String.mk (List.append_nil s.data)

lemma strData_ne_nil {s : String} (h : s ≠ "") : s.data ≠ [] := by
  intro hd
  exact h (congrArg String.mk hd)

lemma strAppend_ne_empty_left {s : String} (h : s ≠ "") (t : String) : s ++ t ≠ "" := by
  intro he
  have hd : s.data ++ t.data = [] := congrArg String.data he
  exact strData_ne_nil h (List.append_eq_nil.mp hd).1

lemma strAppend_ne_empty_right (s : String) {t : String} (h : t ≠ "") : s ++ t ≠ "" := by
  intro he
  have hd : s.data ++ t.data = [] := congrArg String.data he
  exact strData_ne_nil h (List.append_eq_nil.mp hd).2

lemma popBack_append_newline (s : String) : popBack (s ++ "\n") = s := by
  show String.mk ((s.data ++ ['\n']).dropLast) = s
  rw [List.dropLast_concat]

lemma popBack_append_of_ne (a : String) {b : String} (h : b ≠ "") :
    popBack (a ++ b) = a ++ popBack b := by
  show String.mk ((a.data ++ b.data).dropLast) = String.mk (a.data ++ b.data.dropLast)
  rw [List.dropLast_append_of_ne_nil a.data (strData_ne_nil h)]

lemma strAppend_congr_left {a b : String} (h : a = b) (c : String) : a ++ c = b ++ c := by
  rw [h]

lemma popBack_append_pair_newline (a b : String) :
    popBack (a ++ (b ++ "\n")) = a ++ b := by
  show String.mk ((a.data ++ (b.data ++ ['\n'])).dropLast) = String.mk (a.data ++ b.data)
  rw [List.dropLast_append_of_ne_nil a.data (by simp), List.dropLast_concat]

lemma popBack_append_triple_newline (a b c : String) :
    popBack (a ++ (b ++ (c ++ "\n"))) = a ++ (b ++ c) := by
  show String.mk ((a.data ++ (b.data ++ (c.data ++ ['\n']))).dropLast) =
    String.mk (a.data ++ (b.data ++ c.data))
  rw [List.dropLast_append_of_ne_nil a.data (by simp),
    List.dropLast_append_of_ne_nil b.data (by simp), List.dropLast_concat]

section Lemmas

variable (cm : ConstructionMethod M GV SP) (sp : SP)

lemma buildCoords_fst_length :
    ∀ (vs : List GV) (j c : Nat), (buildCoords cm sp vs j c).1.length = vs.length := by
  intro vs
  induction vs with
  | nil => intro j c; rfl
  | cons v vs ih => intro j c; simp [buildCoords, ih]

lemma buildCoords_snd_length :
    ∀ (vs : List GV) (j c : Nat), (buildCoords cm sp vs j c).2.length = vs.length := by
  intro vs
  induction vs with
  | nil => intro j c; rfl
  | cons v vs ih => intro j c; simp [buildCoords, ih]

lemma buildCoords_fst_getElem :
    ∀ (vs : List GV) (j c i : Nat),
      (buildCoords cm sp vs j c).1[i]? =
        vs[i]?.map (fun v => ⟨c + 2 * i, cm.createGeneratingMatrix v sp (j + i)⟩) := by
  intro vs
  induction vs with
  | nil => intro j c i; cases i <;> rfl
  | cons v vs ih =>
    intro j c i
    cases i with
    | zero => simp [buildCoords]
    | succ i =>
      have h := ih (j + 1) (c + 2) i
      simp only [buildCoords, List.getElem?_cons_succ, h]
      have h1 : c + 2 + 2 * i = c + 2 * (i + 1) := by ring
      have h2 : j + 1 + i = j + (i + 1) := by ring
      rw [h1, h2]

lemma buildCoords_snd_getElem :
    ∀ (vs : List GV) (j c i : Nat),
      (buildCoords cm sp vs j c).2[i]? =
        vs[i]?.map (fun v => ⟨c + 2 * i + 1, v⟩) := by
  intro vs
  induction vs with
  | nil => intro j c i; cases i <;> rfl
  | cons v vs ih =>
    intro j c i
    cases i with
    | zero => simp [buildCoords]
    | succ i =>
      have h := ih (j + 1) (c + 2) i
      simp only [buildCoords, List.getElem?_cons_succ, h]
      have h1 : c + 2 + 2 * i + 1 = c + 2 * (i + 1) + 1 := by ring
      rw [h1]

lemma buildCoords_fst_map_val :
    ∀ (vs : List GV) (j c : Nat),
      (buildCoords cm sp vs j c).1.map SPtr.val = matVals cm sp vs j := by
  intro vs
  induction vs with
  | nil => intro j c; rfl
  | cons v vs ih => intro j c; simp [buildCoords, matVals, ih]

lemma buildCoords_snd_map_val :
    ∀ (vs : List GV) (j c : Nat), (buildCoords cm sp vs j c).2.map SPtr.val = vs := by
  intro vs
  induction vs with
  | nil => intro j c; rfl
  | cons v vs ih => intro j c; simp [buildCoords, ih]

lemma extendAll_cons (p : DigitalNet M GV SP × Nat) (v : GV) (vs : List GV) :
    extendAll cm p (v :: vs) =
      extendAll cm (DigitalNet.appendNewCoordinate cm p.1 v p.2) vs := rfl

lemma extendAll_sizeParameter :
    ∀ (vs : List GV) (p : DigitalNet M GV SP × Nat),
      ((extendAll cm p vs).1).m_sizeParameter = p.1.m_sizeParameter := by
  intro vs
  induction vs with
  | nil => intro p; rfl
  | cons v vs ih =>
    intro p
    rw [extendAll_cons, ih]
    rfl

lemma extendAll_dimension :
    ∀ (vs : List GV) (p : DigitalNet M GV SP × Nat),
      ((extendAll cm p vs).1).m_dimension = p.1.m_dimension + vs.length := by
  intro vs
  induction vs with
  | nil => intro p; rfl
  | cons v vs ih =>
    intro p
    have h2 : (DigitalNet.appendNewCoordinate cm p.1 v p.2).1.m_dimension =
        p.1.m_dimension + 1 := rfl
    rw [extendAll_cons, ih, h2, List.length_cons]
    ring

lemma extendAll_nRows :
    ∀ (vs : List GV) (p : DigitalNet M GV SP × Nat),
      p.1.m_nRows = cm.nRows p.1.m_sizeParameter →
        ((extendAll cm p vs).1).m_nRows = cm.nRows p.1.m_sizeParameter := by
  intro vs
  induction vs with
  | nil => intro p h; exact h
  | cons v vs ih =>
    intro p h
    rw [extendAll_cons]
    exact ih _ rfl

lemma extendAll_nCols :
    ∀ (vs : List GV) (p : DigitalNet M GV SP × Nat),
      p.1.m_nCols = cm.nCols p.1.m_sizeParameter →
        ((extendAll cm p vs).1).m_nCols = cm.nCols p.1.m_sizeParameter := by
  intro vs
  induction vs with
  | nil => intro p h; exact h
  | cons v vs ih =>
    intro p h
    rw [extendAll_cons]
    exact ih _ rfl

lemma extendAll_mats_val :
    ∀ (vs : List GV) (p : DigitalNet M GV SP × Nat),
      ((extendAll cm p vs).1).m_generatingMatrices.map SPtr.val =
        p.1.m_generatingMatrices.map SPtr.val ++
          matVals cm p.1.m_sizeParameter vs p.1.m_dimension := by
  intro vs
  induction vs with
  | nil => intro p; simp [extendAll, matVals]
  | cons v vs ih =>
    intro p
    rw [extendAll_cons, ih]
    have hA : (DigitalNet.appendNewCoordinate cm p.1 v p.2).1.m_generatingMatrices =
        p.1.m_generatingMatrices ++
          [⟨p.2, cm.createGeneratingMatrix v p.1.m_sizeParameter p.1.m_dimension⟩] := rfl
    have hB : (DigitalNet.appendNewCoordinate cm p.1 v p.2).1.m_sizeParameter =
        p.1.m_sizeParameter := rfl
    have hC : (DigitalNet.appendNewCoordinate cm p.1 v p.2).1.m_dimension =
        p.1.m_dimension + 1 := rfl
    rw [hA, hB, hC, List.map_append, List.append_assoc]
    simp [matVals]

lemma extendAll_vals_val :
    ∀ (vs : List GV) (p : DigitalNet M GV SP × Nat),
      ((extendAll cm p vs).1).m_genValues.map SPtr.val =
        p.1.m_genValues.map SPtr.val ++ vs := by
  intro vs
  induction vs with
  | nil => intro p; simp [extendAll]
  | cons v vs ih =>
    intro p
    rw [extendAll_cons, ih]
    have hA : (DigitalNet.appendNewCoordinate cm p.1 v p.2).1.m_genValues =
        p.1.m_genValues ++ [⟨p.2 + 1, v⟩] := rfl
    rw [hA, List.map_append, List.append_assoc]
    simp

lemma joinAll_singleton (x : String) : joinAll [x] = x := strAppend_empty x

lemma joinAll_append : ∀ (a b : List String), joinAll (a ++ b) = joinAll a ++ joinAll b := by
  intro a
  induction a with
  | nil => intro b; rw [List.nil_append]; exact (strNil_append _).symm
  | cons x a ih =>
    intro b
    rw [List.cons_append]
    show x ++ joinAll (a ++ b) = (x ++ joinAll a) ++ joinAll b
    rw [ih, strAppend_assoc]

lemma foldl_append_join :
    ∀ (ls : List String) (s : String),
      List.foldl (fun a b => a ++ b) s ls = s ++ joinAll ls := by
  intro ls
  induction ls with
  | nil => intro s; exact (strAppend_empty s).symm
  | cons x ls ih =>
    intro s
    rw [List.foldl_cons, ih]
    show (s ++ x) ++ joinAll ls = s ++ (x ++ joinAll ls)
    rw [strAppend_assoc]

lemma rangeMap_formatLines (F : M → String) :
    ∀ mats : List (SPtr M),
      (List.range mats.length).map (fun coord =>
          (match mats[coord]? with
           | some p => F p.val
           | none => "") ++ "\n") =
        mats.map (fun p => F p.val ++ "\n") := by
  intro mats
  induction mats with
  | nil => rfl
  | cons p mats ih =>
    rw [List.length_cons, List.range_succ_eq_map, List.map_cons, List.map_map,
      List.map_cons]
    congr 1
    · simp
    · have hf : ((fun coord =>
          (match (p :: mats)[coord]? with
           | some q => F q.val
           | none => "") ++ "\n") ∘ Nat.succ) =
          (fun coord =>
            (match mats[coord]? with
             | some q => F q.val
             | none => "") ++ "\n") := by
        funext i
        simp [Function.comp, Nat.succ_eq_add_one, List.getElem?_cons_succ]
      rw [hf]
      exact ih

lemma matrixLines_eq (net : DigitalNet M GV SP)
    (hlen : net.m_genValues.length = net.m_generatingMatrices.length) :
    matrixLines cm net =
      joinAll (net.m_generatingMatrices.map
        (fun p => cm.formatToColumnsReverse p.val ++ "\n")) := by
  show (((List.range net.m_genValues.length).map (fun coord =>
      (match net.m_generatingMatrices[coord]? with
       | some p => cm.formatToColumnsReverse p.val
       | none => "") ++ "\n")).foldl (fun a b => a ++ b) "") = _
  rw [hlen, rangeMap_formatLines, foldl_append_join, strNil_append]

lemma format_NET_eq (net : DigitalNet M GV SP) (intf : Nat) :
    DigitalNet.format cm net OutputStyle.NET intf =
      ("# Parameters for a digital net in base 2\n" ++
          (Nat.repr net.m_dimension ++ "    # " ++ Nat.repr net.m_dimension ++
            " dimensions\n") ++
          (if 1 < intf then
            Nat.repr intf ++ "  // Interlacing factor" ++ "\n" ++
              (Nat.repr net.m_dimension ++
                "  // Number of components = interlacing factor x dimension" ++ "\n")
           else "") ++
          (Nat.repr net.m_nCols ++ "   # k = " ++ Nat.repr net.m_nCols ++ ",  n = 2^" ++
            Nat.repr net.m_nCols ++ " = " ++ Nat.repr net.numPoints ++ " points\n") ++
          "31   # r = 31 binary output digits\n") ++
        (popBack
          ((if intf == 1 then
              "# Columns of gen. matrices C_1,...,C_s, one matrix per line:\n"
            else
              "# Columns of gen. matrices C_1,...,C_\x7bds\x7d, one matrix per line:\n") ++
            matrixLines cm net) ++
          cm.format net.m_generatingMatrices net.m_genValues net.m_sizeParameter
            OutputStyle.NET intf) := by
  have hch : (if intf == 1 then
      "# Columns of gen. matrices C_1,...,C_s, one matrix per line:\n"
    else
      "# Columns of gen. matrices C_1,...,C_\x7bds\x7d, one matrix per line:\n") ≠ "" := by
    split <;> decide
  have h0 : DigitalNet.format cm net OutputStyle.NET intf =
      popBack
        (("# Parameters for a digital net in base 2\n" ++
            (Nat.repr net.m_dimension ++ "    # " ++ Nat.repr net.m_dimension ++
              " dimensions\n") ++
            (if 1 < intf then
              Nat.repr intf ++ "  // Interlacing factor" ++ "\n" ++
                (Nat.repr net.m_dimension ++
                  "  // Number of components = interlacing factor x dimension" ++ "\n")
             else "") ++
            (Nat.repr net.m_nCols ++ "   # k = " ++ Nat.repr net.m_nCols ++ ",  n = 2^" ++
              Nat.repr net.m_nCols ++ " = " ++ Nat.repr net.numPoints ++ " points\n") ++
            "31   # r = 31 binary output digits\n") ++
          ((if intf == 1 then
              "# Columns of gen. matrices C_1,...,C_s, one matrix per line:\n"
            else
              "# Columns of gen. matrices C_1,...,C_\x7bds\x7d, one matrix per line:\n") ++
            matrixLines cm net)) ++
        cm.format net.m_generatingMatrices net.m_genValues net.m_sizeParameter
          OutputStyle.NET intf := rfl
  rw [h0, popBack_append_of_ne _ (strAppend_ne_empty_left hch _), strAppend_assoc]

end Lemmas

/-- C5: for every net whose column count is supported by the 64-bit
`uInteger` type (i.e. below 64), `numPoints()` returns exactly
`2 ^ numColumns()`; `numPoints` is a pure function, and the statement
covers dimension-0 (placeholder) nets as well. -/
theorem claim5_numPoints_pow {M GV SP : Type} (cm : ConstructionMethod M GV SP) :
    (∀ net : DigitalNet M GV SP, net.m_nCols < 64 → net.numPoints = 2 ^ net.m_nCols) ∧
    (∀ (d : Nat) (sp : SP), cm.nCols sp < 64 →
      (DigitalNet.placeholder cm d sp).numPoints = 2 ^ cm.nCols sp) := by
  constructor
  · intro net h
    have hlt : 2 ^ net.m_nCols < 2 ^ 64 := Nat.pow_lt_pow_right (by norm_num) h
    simpa [DigitalNet.numPoints, intPow, uIntegerModulus] using Nat.mod_eq_of_lt hlt
  · intro d sp h
    have hlt : 2 ^ cm.nCols sp < 2 ^ 64 := Nat.pow_lt_pow_right (by norm_num) h
    simpa [DigitalNet.numPoints, DigitalNet.placeholder, intPow, uIntegerModulus] using
      Nat.mod_eq_of_lt hlt

/-- Witness for C5 at a concrete net with 3 columns. -/
theorem claim5_numPoints_pow_witness :
    exNet9.m_nCols < 64 ∧ exNet9.numPoints = 2 ^ exNet9.m_nCols :=
  ⟨by decide, (claim5_numPoints_pow unitCM).1 exNet9 (by decide)⟩

/-- Counterexample for C7: at 64 columns, `numPoints()` silently returns
`2 ^ 64 % 2 ^ 64 = 0` — a wrapped, incorrect value — instead of failing
with a detected capacity error (it is a total function with no error
channel). -/
theorem claim7_counterexample :
    exNet64.m_nCols = 64 ∧ exNet64.numPoints = 0 ∧
      exNet64.numPoints ≠ 2 ^ exNet64.m_nCols := by
  refine ⟨rfl, by decide, by decide⟩

/-- C7 (amended): for column counts of at least 64, `numPoints()`
silently wraps modulo `2 ^ 64` and returns 0; there is no explicit
overflow guard and no failure. -/
theorem claim7_numPoints_wraps {M GV SP : Type} (net : DigitalNet M GV SP)
    (h : 64 ≤ net.m_nCols) :
    net.numPoints = 0 ∧ net.numPoints ≠ 2 ^ net.m_nCols := by
  have hdvd : uIntegerModulus ∣ 2 ^ net.m_nCols := by
    simpa [uIntegerModulus] using pow_dvd_pow 2 h
  have h0 : net.numPoints = 0 := by
    simp only [DigitalNet.numPoints, intPow]
    exact Nat.mod_eq_zero_of_dvd hdvd
  refine ⟨h0, ?_⟩
  rw [h0]
  have hpos : (0 : Nat) < 2 ^ net.m_nCols := Nat.pos_pow_of_pos _ (by norm_num)
  omega

/-- Witness for the amended C7 at a concrete net with 70 columns. -/
theorem claim7_numPoints_wraps_witness :
    exNet70.numPoints = 0 ∧ exNet70.numPoints ≠ 2 ^ exNet70.m_nCols :=
  claim7_numPoints_wraps exNet70 (by decide)

/-- C10: the placeholder constructor accepts any dimension `d`; the
resulting net reports dimension `d` and the row/column counts derived
from the size parameter, but holds no matrices and no generating values;
hence for `d > 0` the length invariant fails and every
`generatingMatrix` lookup is out of range (undefined behaviour). -/
theorem claim10_placeholder_any_dimension {M GV SP : Type}
    (cm : ConstructionMethod M GV SP) (d : Nat) (sp : SP) :
    (DigitalNet.placeholder cm d sp).m_dimension = d ∧
    (DigitalNet.placeholder cm d sp).m_nRows = cm.nRows sp ∧
    (DigitalNet.placeholder cm d sp).m_nCols = cm.nCols sp ∧
    (DigitalNet.placeholder cm d sp).m_generatingMatrices = [] ∧
    (DigitalNet.placeholder cm d sp).m_genValues = [] ∧
    (0 < d → ¬((DigitalNet.placeholder cm d sp).m_genValues.length = d ∧
      (DigitalNet.placeholder cm d sp).m_generatingMatrices.length = d)) ∧
    ∀ coord : Nat,
      (DigitalNet.placeholder cm d sp).generatingMatrix coord =
        MatrixLookup.undefined := by
  refine ⟨rfl, rfl, rfl, rfl, rfl, ?_, ?_⟩
  · intro hd hc
    have h0 : (DigitalNet.placeholder cm d sp).m_genValues.length = 0 := rfl
    rw [h0] at hc
    omega
  · intro coord
    have hn : (DigitalNet.placeholder cm d sp).m_generatingMatrices[coord]? = none := by
      have he : (DigitalNet.placeholder cm d sp).m_generatingMatrices = [] := rfl
      rw [he, List.getElem?_nil]
    simp [DigitalNet.generatingMatrix, hn]

/-- Witness for C10 at dimension 1. -/
theorem claim10_placeholder_any_dimension_witness :
    (DigitalNet.placeholder unitCM 1 (3, 3)).m_dimension = 1 ∧
    ¬((DigitalNet.placeholder unitCM 1 (3, 3)).m_genValues.length = 1 ∧
      (DigitalNet.placeholder unitCM 1 (3, 3)).m_generatingMatrices.length = 1) ∧
    (DigitalNet.placeholder unitCM 1 (3, 3)).generatingMatrix 0 =
      MatrixLookup.undefined :=
  ⟨(claim10_placeholder_any_dimension unitCM 1 (3, 3)).1,
    (claim10_placeholder_any_dimension unitCM 1 (3, 3)).2.2.2.2.2.1 (by decide),
    (claim10_placeholder_any_dimension unitCM 1 (3, 3)).2.2.2.2.2.2 0⟩

/-- Counterexample for C6: `exNet1` has dimension 1; looking up
coordinate 1 (out of range) yields the undefined-behaviour outcome of
unchecked `std::vector::operator[]`, not a raised out-of-range condition
(`MatrixLookup.undefined` and `MatrixLookup.raised e` are distinct
constructors). -/
theorem claim6_counterexample :
    exNet1.m_dimension = 1 ∧
      exNet1.generatingMatrix 1 = MatrixLookup.undefined := by
  exact ⟨rfl, rfl⟩

/-- C6 (amended): for a net whose matrix count equals its dimension,
`generatingMatrix(coord)` returns the stored matrix at index `coord`
whenever `coord < dimension()`; for `coord ≥ dimension()` the unchecked
vector access has undefined behaviour — it does not produce any raised
error condition. -/
theorem claim6_generatingMatrix_unchecked {M GV SP : Type}
    (net : DigitalNet M GV SP) (coord : Nat)
    (hwf : net.m_generatingMatrices.length = net.m_dimension) :
    (coord < net.m_dimension →
      ∃ p : SPtr M, net.m_generatingMatrices[coord]? = some p ∧
        net.generatingMatrix coord = MatrixLookup.value p.val) ∧
    (net.m_dimension ≤ coord →
      net.generatingMatrix coord = MatrixLookup.undefined ∧
        ∀ e : String, net.generatingMatrix coord ≠ MatrixLookup.raised e) := by
  constructor
  · intro h
    have hlt : coord < net.m_generatingMatrices.length := by rw [hwf]; exact h
    cases hg : net.m_generatingMatrices[coord]? with
    | none =>
      rw [List.getElem?_eq_none_iff] at hg
      omega
    | some p =>
      exact ⟨p, rfl, by simp [DigitalNet.generatingMatrix, hg]⟩
  · intro h
    have hn : net.m_generatingMatrices[coord]? = none := by
      rw [List.getElem?_eq_none_iff, hwf]
      exact h
    constructor
    · simp [DigitalNet.generatingMatrix, hn]
    · intro e he
      simp [DigitalNet.generatingMatrix, hn] at he

/-- Witness for the amended C6: in-range and out-of-range lookups on a
concrete one-coordinate net. -/
theorem claim6_generatingMatrix_unchecked_witness :
    (∃ p : SPtr Nat, exNet1.m_generatingMatrices[0]? = some p ∧
      exNet1.generatingMatrix 0 = MatrixLookup.value p.val) ∧
    exNet1.generatingMatrix 1 = MatrixLookup.undefined :=
  ⟨(claim6_generatingMatrix_unchecked exNet1 0 rfl).1 (by decide),
    ((claim6_generatingMatrix_unchecked exNet1 1 rfl).2 (by decide)).1⟩

/-- C2: appending a generating value `v` to a net of dimension `d` (with
`d` stored matrices) produces a net of dimension `d + 1` whose matrix at
coordinate `d` is `createGeneratingMatrix(v, sizeParameter, d)` — the new
matrix is built with coordinate index equal to the receiver's dimension
before the call. -/
theorem claim2_appendNewCoordinate_dimension {M GV SP : Type}
    (cm : ConstructionMethod M GV SP) (net : DigitalNet M GV SP) (v : GV) (c : Nat)
    (hwf : net.m_generatingMatrices.length = net.m_dimension) :
    ((DigitalNet.appendNewCoordinate cm net v c).1).m_dimension = net.m_dimension + 1 ∧
    ((DigitalNet.appendNewCoordinate cm net v c).1).generatingMatrix net.m_dimension =
      MatrixLookup.value
        (cm.createGeneratingMatrix v net.m_sizeParameter net.m_dimension) := by
  refine ⟨rfl, ?_⟩
  have hg : ((DigitalNet.appendNewCoordinate cm net v c).1).m_generatingMatrices =
      net.m_generatingMatrices ++
        [⟨c, cm.createGeneratingMatrix v net.m_sizeParameter net.m_dimension⟩] := rfl
  have hsome : ((DigitalNet.appendNewCoordinate cm net v c).1).m_generatingMatrices[net.m_dimension]? =
      some ⟨c, cm.createGeneratingMatrix v net.m_sizeParameter net.m_dimension⟩ := by
    rw [hg, ← hwf, List.getElem?_concat_length]
  simp [DigitalNet.generatingMatrix, hsome]

/-- Witness for C2 on a concrete one-coordinate net. -/
theorem claim2_appendNewCoordinate_dimension_witness :
    ((DigitalNet.appendNewCoordinate unitCM exNet1 9 2).1).m_dimension =
      exNet1.m_dimension + 1 ∧
    ((DigitalNet.appendNewCoordinate unitCM exNet1 9 2).1).generatingMatrix
        exNet1.m_dimension =
      MatrixLookup.value
        (unitCM.createGeneratingMatrix 9 exNet1.m_sizeParameter exNet1.m_dimension) :=
  claim2_appendNewCoordinate_dimension unitCM exNet1 9 2 rfl

/-- C1: the stored matrix at each coordinate is the pure function
`createGeneratingMatrix(value, sizeParameter, index)` of the stored
generating value, the size parameter, and the coordinate index: the
value-sequence constructor establishes the invariant (for any requested
dimension), the placeholder satisfies it vacuously, and
`appendNewCoordinate` preserves it together with length consistency; no
operation mutates the per-coordinate data of an existing net. -/
theorem claim1_matrices_pure_function {M GV SP : Type}
    (cm : ConstructionMethod M GV SP) :
    (∀ (d : Nat) (sp : SP) (vs : List GV) (c : Nat),
      matricesMatchValues cm ((DigitalNet.ofGenValues cm d sp vs c).1)) ∧
    (∀ (sp : SP) (vs : List GV) (c : Nat),
      wellFormed ((DigitalNet.ofGenValues cm vs.length sp vs c).1)) ∧
    (∀ (d : Nat) (sp : SP), matricesMatchValues cm (DigitalNet.placeholder cm d sp)) ∧
    (∀ (net : DigitalNet M GV SP) (v : GV) (c : Nat),
      wellFormed net → matricesMatchValues cm net →
        wellFormed ((DigitalNet.appendNewCoordinate cm net v c).1) ∧
          matricesMatchValues cm ((DigitalNet.appendNewCoordinate cm net v c).1)) := by
  refine ⟨?_, ?_, ?_, ?_⟩
  · intro d sp vs c i
    have hm : ((DigitalNet.ofGenValues cm d sp vs c).1).m_generatingMatrices =
        (buildCoords cm sp vs 0 c).1 := rfl
    have hv : ((DigitalNet.ofGenValues cm d sp vs c).1).m_genValues =
        (buildCoords cm sp vs 0 c).2 := rfl
    have hs : ((DigitalNet.ofGenValues cm d sp vs c).1).m_sizeParameter = sp := rfl
    rw [hm, hv, hs, buildCoords_fst_getElem, buildCoords_snd_getElem]
    cases hv2 : vs[i]? with
    | none => simp [hv2]
    | some a => simp [hv2, Nat.zero_add]
  · intro sp vs c
    constructor
    · have hm : ((DigitalNet.ofGenValues cm vs.length sp vs c).1).m_generatingMatrices =
          (buildCoords cm sp vs 0 c).1 := rfl
      rw [hm, buildCoords_fst_length]
      rfl
    · have hv : ((DigitalNet.ofGenValues cm vs.length sp vs c).1).m_genValues =
          (buildCoords cm sp vs 0 c).2 := rfl
      rw [hv, buildCoords_snd_length]
      rfl
  · intro d sp i
    have hm : (DigitalNet.placeholder cm d sp).m_generatingMatrices = [] := rfl
    have hv : (DigitalNet.placeholder cm d sp).m_genValues = [] := rfl
    rw [hm, hv, List.getElem?_nil, List.getElem?_nil]
    rfl
  · intro net v c hwf hmv
    have hA : ((DigitalNet.appendNewCoordinate cm net v c).1).m_generatingMatrices =
        net.m_generatingMatrices ++
          [⟨c, cm.createGeneratingMatrix v net.m_sizeParameter net.m_dimension⟩] := rfl
    have hB : ((DigitalNet.appendNewCoordinate cm net v c).1).m_genValues =
        net.m_genValues ++ [⟨c + 1, v⟩] := rfl
    have hD : ((DigitalNet.appendNewCoordinate cm net v c).1).m_dimension =
        net.m_dimension + 1 := rfl
    have hS : ((DigitalNet.appendNewCoordinate cm net v c).1).m_sizeParameter =
        net.m_sizeParameter := rfl
    have hlen : net.m_genValues.length = net.m_generatingMatrices.length := by
      rw [hwf.1, hwf.2]
    constructor
    · constructor
      · rw [hA, hD, List.length_append, hwf.1]
        rfl
      · rw [hB, hD, List.length_append, hwf.2]
        rfl
    · intro i
      rw [hA, hB, hS]
      rcases Nat.lt_trichotomy i net.m_generatingMatrices.length with hlt | heq | hgt
      · rw [List.getElem?_append_left hlt,
          List.getElem?_append_left (by rw [hlen]; exact hlt)]
        exact hmv i
      · have h1 : (net.m_generatingMatrices ++
            [(⟨c, cm.createGeneratingMatrix v net.m_sizeParameter net.m_dimension⟩ :
              SPtr M)])[i]? =
            some ⟨c, cm.createGeneratingMatrix v net.m_sizeParameter net.m_dimension⟩ := by
          rw [heq, List.getElem?_concat_length]
        have h2 : (net.m_genValues ++ [(⟨c + 1, v⟩ : SPtr GV)])[i]? =
            some ⟨c + 1, v⟩ := by
          rw [heq, ← hlen, List.getElem?_concat_length]
        have h3 : i = net.m_dimension := by rw [heq, hwf.1]
        rw [h1, h2, h3]
        rfl
      · have h1 : (net.m_generatingMatrices ++
            [(⟨c, cm.createGeneratingMatrix v net.m_sizeParameter net.m_dimension⟩ :
              SPtr M)])[i]? = none := by
          apply List.getElem?_eq_none
          rw [List.length_append]
          simpa using hgt
        have h2 : (net.m_genValues ++ [(⟨c + 1, v⟩ : SPtr GV)])[i]? = none := by
          apply List.getElem?_eq_none
          rw [List.length_append, hlen]
          simpa using hgt
        rw [h1, h2]
        rfl

/-- Witness for C1: the invariant holds for a concrete constructed net
and is preserved when that net is extended. -/
theorem claim1_matrices_pure_function_witness :
    wellFormed ((DigitalNet.appendNewCoordinate unitCM exNet1 7 2).1) ∧
      matricesMatchValues unitCM ((DigitalNet.appendNewCoordinate unitCM exNet1 7 2).1) :=
  (claim1_matrices_pure_function unitCM).2.2.2 exNet1 7 2 ⟨rfl, rfl⟩
    ((claim1_matrices_pure_function unitCM).1 1 (3, 3) [5] 0)

/-- C3: `appendNewCoordinate` shares the receiver's per-coordinate data
by identity — the first `d` matrix and value slots of the child are the
very same `SPtr` cells (same allocation address, not copies) as the
parent's, the parent itself is untouched (the operation is a pure
function of the receiver), a fresh allocation is distinct from every
pointer the parent holds, and two sibling extensions of one parent with
different values and distinct allocations both share the parent's prefix
while their new slots are distinct underlying objects. -/
theorem claim3_appendNewCoordinate_sharing {M GV SP : Type}
    (cm : ConstructionMethod M GV SP) (net : DigitalNet M GV SP)
    (v1 v2 : GV) (c1 c2 : Nat) :
    ((DigitalNet.appendNewCoordinate cm net v1 c1).1).m_generatingMatrices.take
        net.m_generatingMatrices.length = net.m_generatingMatrices ∧
    ((DigitalNet.appendNewCoordinate cm net v1 c1).1).m_genValues.take
        net.m_genValues.length = net.m_genValues ∧
    (∀ j, j < net.m_generatingMatrices.length →
      ((DigitalNet.appendNewCoordinate cm net v1 c1).1).m_generatingMatrices[j]? =
        net.m_generatingMatrices[j]?) ∧
    ((∀ p ∈ net.m_generatingMatrices, p.addr < c1) →
      ∀ p ∈ net.m_generatingMatrices, p.addr ≠ c1) ∧
    (c1 ≠ c2 →
      ((DigitalNet.appendNewCoordinate cm net v1 c1).1).m_generatingMatrices[net.m_generatingMatrices.length]? =
        some ⟨c1, cm.createGeneratingMatrix v1 net.m_sizeParameter net.m_dimension⟩ ∧
      ((DigitalNet.appendNewCoordinate cm net v2 c2).1).m_generatingMatrices[net.m_generatingMatrices.length]? =
        some ⟨c2, cm.createGeneratingMatrix v2 net.m_sizeParameter net.m_dimension⟩ ∧
      ((DigitalNet.appendNewCoordinate cm net v2 c2).1).m_generatingMatrices.take
        net.m_generatingMatrices.length = net.m_generatingMatrices ∧
      (SPtr.mk c1 (cm.createGeneratingMatrix v1 net.m_sizeParameter net.m_dimension)).addr ≠
        (SPtr.mk c2 (cm.createGeneratingMatrix v2 net.m_sizeParameter net.m_dimension)).addr) := by
  have hA1 : ((DigitalNet.appendNewCoordinate cm net v1 c1).1).m_generatingMatrices =
      net.m_generatingMatrices ++
        [⟨c1, cm.createGeneratingMatrix v1 net.m_sizeParameter net.m_dimension⟩] := rfl
  have hA2 : ((DigitalNet.appendNewCoordinate cm net v2 c2).1).m_generatingMatrices =
      net.m_generatingMatrices ++
        [⟨c2, cm.createGeneratingMatrix v2 net.m_sizeParameter net.m_dimension⟩] := rfl
  have hB1 : ((DigitalNet.appendNewCoordinate cm net v1 c1).1).m_genValues =
      net.m_genValues ++ [⟨c1 + 1, v1⟩] := rfl
  refine ⟨?_, ?_, ?_, ?_, ?_⟩
  · rw [hA1, List.take_left]
  · rw [hB1, List.take_left]
  · intro j hj
    rw [hA1, List.getElem?_append_left hj]
  · intro hfresh p hp
    exact Nat.ne_of_lt (hfresh p hp)
  · intro hne
    refine ⟨?_, ?_, ?_, hne⟩
    · rw [hA1, List.getElem?_concat_length]
    · rw [hA2, List.getElem?_concat_length]
    · rw [hA2, List.take_left]

/-- Witness for C3: sibling extensions of a concrete parent share its
slot and carry distinct fresh slots. -/
theorem claim3_appendNewCoordinate_sharing_witness :
    ((DigitalNet.appendNewCoordinate unitCM exNet1 7 2).1).m_generatingMatrices.take
        exNet1.m_generatingMatrices.length = exNet1.m_generatingMatrices ∧
    (((DigitalNet.appendNewCoordinate unitCM exNet1 7 2).1).m_generatingMatrices[exNet1.m_generatingMatrices.length]? =
        some ⟨2, unitCM.createGeneratingMatrix 7 exNet1.m_sizeParameter exNet1.m_dimension⟩ ∧
      ((DigitalNet.appendNewCoordinate unitCM exNet1 9 4).1).m_generatingMatrices[exNet1.m_generatingMatrices.length]? =
        some ⟨4, unitCM.createGeneratingMatrix 9 exNet1.m_sizeParameter exNet1.m_dimension⟩ ∧
      ((DigitalNet.appendNewCoordinate unitCM exNet1 9 4).1).m_generatingMatrices.take
        exNet1.m_generatingMatrices.length = exNet1.m_generatingMatrices ∧
      (SPtr.mk 2 (unitCM.createGeneratingMatrix 7 exNet1.m_sizeParameter exNet1.m_dimension)).addr ≠
        (SPtr.mk 4 (unitCM.createGeneratingMatrix 9 exNet1.m_sizeParameter exNet1.m_dimension)).addr) :=
  ⟨(claim3_appendNewCoordinate_sharing unitCM exNet1 7 9 2 4).1,
    (claim3_appendNewCoordinate_sharing unitCM exNet1 7 9 2 4).2.2.2.2 (by decide)⟩

/-- C4: starting from the dimension-0 placeholder and appending `n`
generating values one at a time yields a net that agrees matrix-for-matrix
(dimension, row and column counts, matrix contents at every coordinate,
and generating-value contents) with the net built directly from those `n`
values by the value-sequence constructor. -/
theorem claim4_placeholder_extension_roundtrip {M GV SP : Type}
    (cm : ConstructionMethod M GV SP) (sp : SP) (vs : List GV) (c cD : Nat) :
    ((extendAll cm (DigitalNet.placeholder cm 0 sp, c) vs).1).m_dimension =
      ((DigitalNet.ofGenValues cm vs.length sp vs cD).1).m_dimension ∧
    ((extendAll cm (DigitalNet.placeholder cm 0 sp, c) vs).1).m_nRows =
      ((DigitalNet.ofGenValues cm vs.length sp vs cD).1).m_nRows ∧
    ((extendAll cm (DigitalNet.placeholder cm 0 sp, c) vs).1).m_nCols =
      ((DigitalNet.ofGenValues cm vs.length sp vs cD).1).m_nCols ∧
    ((extendAll cm (DigitalNet.placeholder cm 0 sp, c) vs).1).m_generatingMatrices.map
        SPtr.val =
      ((DigitalNet.ofGenValues cm vs.length sp vs cD).1).m_generatingMatrices.map
        SPtr.val ∧
    ((extendAll cm (DigitalNet.placeholder cm 0 sp, c) vs).1).m_genValues.map SPtr.val =
      ((DigitalNet.ofGenValues cm vs.length sp vs cD).1).m_genValues.map SPtr.val := by
  refine ⟨?_, ?_, ?_, ?_, ?_⟩
  · rw [extendAll_dimension]
    have h0 : (DigitalNet.placeholder cm 0 sp).m_dimension = 0 := rfl
    rw [h0]
    have hD : ((DigitalNet.ofGenValues cm vs.length sp vs cD).1).m_dimension =
        vs.length := rfl
    rw [hD, Nat.zero_add]
  · exact extendAll_nRows cm vs (DigitalNet.placeholder cm 0 sp, c) rfl
  · exact extendAll_nCols cm vs (DigitalNet.placeholder cm 0 sp, c) rfl
  · rw [extendAll_mats_val]
    have hm : ((DigitalNet.ofGenValues cm vs.length sp vs cD).1).m_generatingMatrices =
        (buildCoords cm sp vs 0 cD).1 := rfl
    rw [hm, buildCoords_fst_map_val]
    rfl
  · rw [extendAll_vals_val]
    have hv : ((DigitalNet.ofGenValues cm vs.length sp vs cD).1).m_genValues =
        (buildCoords cm sp vs 0 cD).2 := rfl
    rw [hv, buildCoords_snd_map_val]
    rfl

set_option maxRecDepth 16384 in
/-- C8: the Style B ("net file") output contains the dimension line
`<dimension>    # <dimension> dimensions` and the literal line
`31   # r = 31 binary output digits` for every net; when the net has at
least one coordinate the last matrix line is immediately followed by the
traits' appended text (no trailing blank line); and for a dimension-1,
column-count-2 net with one matrix the generic block is exactly the
claimed literal text followed by that matrix's
`formatToColumnsReverse` rendering. -/
theorem claim8_format_net_style {M GV SP : Type} (cm : ConstructionMethod M GV SP) :
    (∀ (net : DigitalNet M GV SP) (intf : Nat), ∃ pre post : String,
      DigitalNet.format cm net OutputStyle.NET intf =
        pre ++ (Nat.repr net.m_dimension ++ "    # " ++ Nat.repr net.m_dimension ++
          " dimensions\n") ++ post) ∧
    (∀ (net : DigitalNet M GV SP) (intf : Nat), ∃ pre post : String,
      DigitalNet.format cm net OutputStyle.NET intf =
        pre ++ "31   # r = 31 binary output digits\n" ++ post) ∧
    (∀ (net : DigitalNet M GV SP) (intf : Nat) (mats : List (SPtr M)) (p : SPtr M),
      net.m_generatingMatrices = mats ++ [p] →
      net.m_genValues.length = net.m_generatingMatrices.length →
      ∃ pre : String,
        DigitalNet.format cm net OutputStyle.NET intf =
          pre ++ cm.formatToColumnsReverse p.val ++
            cm.format net.m_generatingMatrices net.m_genValues net.m_sizeParameter
              OutputStyle.NET intf) ∧
    (∀ (net : DigitalNet M GV SP) (p : SPtr M) (q : SPtr GV),
      net.m_dimension = 1 → net.m_nCols = 2 →
      net.m_generatingMatrices = [p] → net.m_genValues = [q] →
      DigitalNet.format cm net OutputStyle.NET 1 =
        "# Parameters for a digital net in base 2\n1    # 1 dimensions\n2   # k = 2,  n = 2^2 = 4 points\n31   # r = 31 binary output digits\n# Columns of gen. matrices C_1,...,C_s, one matrix per line:\n" ++
          cm.formatToColumnsReverse p.val ++
            cm.format net.m_generatingMatrices net.m_genValues net.m_sizeParameter
              OutputStyle.NET 1) := by
  refine ⟨?_, ?_, ?_, ?_⟩
  · intro net intf
    refine ⟨"# Parameters for a digital net in base 2\n",
      (if 1 < intf then
        Nat.repr intf ++ "  // Interlacing factor" ++ "\n" ++
          (Nat.repr net.m_dimension ++
            "  // Number of components = interlacing factor x dimension" ++ "\n")
       else "") ++
        ((Nat.repr net.m_nCols ++ "   # k = " ++ Nat.repr net.m_nCols ++ ",  n = 2^" ++
          Nat.repr net.m_nCols ++ " = " ++ Nat.repr net.numPoints ++ " points\n") ++
          ("31   # r = 31 binary output digits\n" ++
            (popBack
              ((if intf == 1 then
                  "# Columns of gen. matrices C_1,...,C_s, one matrix per line:\n"
                else
                  "# Columns of gen. matrices C_1,...,C_\x7bds\x7d, one matrix per line:\n") ++
                matrixLines cm net) ++
              cm.format net.m_generatingMatrices net.m_genValues net.m_sizeParameter
                OutputStyle.NET intf))), ?_⟩
    rw [format_NET_eq]
    simp only [strAppend_assoc]
  · intro net intf
    refine ⟨"# Parameters for a digital net in base 2\n" ++
      ((Nat.repr net.m_dimension ++ "    # " ++ Nat.repr net.m_dimension ++
        " dimensions\n") ++
        ((if 1 < intf then
          Nat.repr intf ++ "  // Interlacing factor" ++ "\n" ++
            (Nat.repr net.m_dimension ++
              "  // Number of components = interlacing factor x dimension" ++ "\n")
         else "") ++
          (Nat.repr net.m_nCols ++ "   # k = " ++ Nat.repr net.m_nCols ++ ",  n = 2^" ++
            Nat.repr net.m_nCols ++ " = " ++ Nat.repr net.numPoints ++ " points\n"))),
      popBack
        ((if intf == 1 then
            "# Columns of gen. matrices C_1,...,C_s, one matrix per line:\n"
          else
            "# Columns of gen. matrices C_1,...,C_\x7bds\x7d, one matrix per line:\n") ++
          matrixLines cm net) ++
        cm.format net.m_generatingMatrices net.m_genValues net.m_sizeParameter
          OutputStyle.NET intf, ?_⟩
    rw [format_NET_eq]
    simp only [strAppend_assoc]
  · intro net intf mats p hmats hlen
    rw [format_NET_eq, matrixLines_eq cm net (by rw [hlen]), hmats, List.map_append]
    rw [joinAll_append]
    have hj : joinAll ([p].map (fun r => cm.formatToColumnsReverse r.val ++ "\n")) =
        cm.formatToColumnsReverse p.val ++ "\n" := joinAll_singleton _
    rw [hj]
    refine ⟨("# Parameters for a digital net in base 2\n" ++
      (Nat.repr net.m_dimension ++ "    # " ++ Nat.repr net.m_dimension ++
        " dimensions\n") ++
      (if 1 < intf then
        Nat.repr intf ++ "  // Interlacing factor" ++ "\n" ++
          (Nat.repr net.m_dimension ++
            "  // Number of components = interlacing factor x dimension" ++ "\n")
       else "") ++
      (Nat.repr net.m_nCols ++ "   # k = " ++ Nat.repr net.m_nCols ++ ",  n = 2^" ++
        Nat.repr net.m_nCols ++ " = " ++ Nat.repr net.numPoints ++ " points\n") ++
      "31   # r = 31 binary output digits\n") ++
      ((if intf == 1 then
          "# Columns of gen. matrices C_1,...,C_s, one matrix per line:\n"
        else
          "# Columns of gen. matrices C_1,...,C_\x7bds\x7d, one matrix per line:\n") ++
        joinAll (mats.map (fun r => cm.formatToColumnsReverse r.val ++ "\n"))), ?_⟩
    rw [popBack_append_triple_newline]
    simp only [strAppend_assoc]
  · intro net p q h1 h2 h3 h4
    have hlen : net.m_genValues.length = net.m_generatingMatrices.length := by
      rw [h3, h4]
      rfl
    have hnp : net.numPoints = 4 := by
      show intPow 2 net.m_nCols = 4
      rw [h2]
      decide
    have hj : joinAll ([p].map (fun r => cm.formatToColumnsReverse r.val ++ "\n")) =
        cm.formatToColumnsReverse p.val ++ "\n" := joinAll_singleton _
    rw [format_NET_eq, matrixLines_eq cm net hlen, h1, h2, h3, hnp, hj,
      popBack_append_pair_newline]
    simp only [← strAppend_assoc]
    exact strAppend_congr_left (strAppend_congr_left (by decide) _) _

set_option maxRecDepth 16384 in
/-- Witness for C8 on a concrete one-coordinate, two-column net. -/
theorem claim8_format_net_style_witness :
    exNet8.format unitCM OutputStyle.NET 1 =
      "# Parameters for a digital net in base 2\n1    # 1 dimensions\n2   # k = 2,  n = 2^2 = 4 points\n31   # r = 31 binary output digits\n# Columns of gen. matrices C_1,...,C_s, one matrix per line:\n" ++
        unitCM.formatToColumnsReverse (SPtr.mk 0 (5 : Nat)).val ++
          unitCM.format exNet8.m_generatingMatrices exNet8.m_genValues
            exNet8.m_sizeParameter OutputStyle.NET 1 :=
  (claim8_format_net_style unitCM).2.2.2 exNet8 ⟨0, 5⟩ ⟨1, 5⟩ rfl rfl rfl rfl

end NetBuilder
